import Mathlib

/-!
Verification of the request/response audit-logging pipeline of the
ThyApiTestProject repository (client → log repository → relational store),
shallowly embedded from the TypeScript sources:

* `src/services/api-client.service.ts`   — Instrumented Client (`ApiClientService`)
* `src/repositories/api-log.repository.ts` — Log Store (`ApiLogRepository`)
* `src/services/database.service.ts`     — Connection Manager (`DatabaseService`)
* `src/utils/database.util.ts`           — Schema Provisioner (`DatabaseUtil`)

Modelling conventions:

* JavaScript values that flow into `JSON.stringify` are modelled by the
  inductive type `Js` (numbers restricted to integers; `undefined` is the
  `Js.undef` constructor, used for absent optional fields).
* The relational store is modelled as explicit state: `LogDb` holds the two
  append-only tables of §6 of the spec (`api_test.api_requests`,
  `api_test.api_responses`), a serial id counter per table, and a logical
  clock standing for the store-assigned `timestamp` column (each insert gets
  a strictly larger timestamp).
* Asynchronous effects that can fail (store INSERTs, the network call) are
  resolved by an explicit oracle (`GetOracle`): the oracle says whether each
  effect throws and with which error/result; on success the corresponding
  pure state transformer is applied.  A thrown JavaScript error value is
  modelled by `JsError` (the two properties the client reads: `.status`,
  `.message`).
-/

/-- Model of a JSON-serializable JavaScript value (numbers restricted to
integers; `undef` models JavaScript `undefined`, used for absent optional
fields of `ApiRequest`/`ApiResponseLog`). -/
inductive Js where
  | undef
  | null
  | bool (b : Bool)
  | num (n : Int)
  | str (s : String)
  | arr (elems : List Js)
  | obj (fields : List (String × Js))

/-- JavaScript truthiness, as used by the `x ? JSON.stringify(x) : null`
idiom in `ApiLogRepository.logRequest`/`logResponse` and by
`error.status || 500` / `error.message || 'Unknown error'` in
`ApiClientService.logErrorResponse`.  `undefined`, `null`, `false`, `0` and
the empty string are falsy; every object and array is truthy. -/
def Js.truthy : Js → Bool
  | .undef => false
  | .null => false
  | .bool b => b
  | .num n => n != 0
  | .str s => !s.isEmpty
  | .arr _ => true
  | .obj _ => true

/-- Escape one character for a JSON string literal (the cases relevant to the
values this harness serializes: quote, backslash, and the common control
characters). -/
def jsEscapeChar (c : Char) : String :=
  if c = '"' then "\\\""
  else if c = '\\' then "\\\\"
  else if c = '\n' then "\\n"
  else if c = '\r' then "\\r"
  else if c = '\t' then "\\t"
  else String.singleton c

/-- Escape a string for inclusion in a JSON document. -/
def jsEscape (s : String) : String :=
  String.join (s.data.map jsEscapeChar)

mutual

/-- Model of `JSON.stringify` on `Js` values.  (`Js.undef` is mapped to
`"null"`; the code under verification never stringifies `undefined` because
the truthiness guard in `serializeJson` filters it out first.) -/
def jsStringify : Js → String
  | .undef => "null"
  | .null => "null"
  | .bool true => "true"
  | .bool false => "false"
  | .num n => toString n
  | .str s => "\"" ++ jsEscape s ++ "\""
  | .arr es => "[" ++ jsStringifyElems es ++ "]"
  | .obj fs => "\x7b" ++ jsStringifyFields fs ++ "\x7d"

/-- Comma-separated stringification of JSON array elements. -/
def jsStringifyElems : List Js → String
  | [] => ""
  | [e] => jsStringify e
  | e :: e' :: es => jsStringify e ++ "," ++ jsStringifyElems (e' :: es)

/-- Comma-separated stringification of JSON object fields. -/
def jsStringifyFields : List (String × Js) → String
  | [] => ""
  | [(k, v)] => "\"" ++ jsEscape k ++ "\":" ++ jsStringify v
  | (k, v) :: f :: fs =>
      "\"" ++ jsEscape k ++ "\":" ++ jsStringify v ++ "," ++ jsStringifyFields (f :: fs)

end

/-- The `x ? JSON.stringify(x) : null` serialization idiom used for the
JSONB `headers`/`body` columns in `ApiLogRepository.logRequest` (lines
61-62) and `logResponse` (lines 90-91): a falsy value (absent field,
`null`, `0`, `""`, `false`) is stored as SQL NULL (`none`), anything else
as its JSON text. -/
def serializeJson (v : Js) : Option String :=
  if v.truthy then some (jsStringify v) else none

/-- One row of `api_test.api_requests` (schema in
`database.util.ts` lines 124-133): serial id, endpoint, method, optional
JSONB headers/body (stored as their JSON text, `none` = SQL NULL), and the
store-assigned timestamp (modelled by a logical clock). -/
structure ReqRow where
  id : Nat
  endpoint : String
  method : String
  headers : Option String
  body : Option String
  timestamp : Nat
deriving DecidableEq, Repr

/-- One row of `api_test.api_responses` (schema in
`database.util.ts` lines 137-147): serial id, foreign key to
`api_requests`, status code, optional JSONB headers/body, response time,
and the store-assigned timestamp. -/
structure RespRow where
  id : Nat
  requestId : Nat
  statusCode : Int
  headers : Option String
  body : Option String
  responseTimeMs : Nat
  timestamp : Nat
deriving DecidableEq, Repr

/-- State of the two append-only audit tables, plus the serial-id counters
and a logical clock for the store-assigned `timestamp DEFAULT
CURRENT_TIMESTAMP` column (each insert receives the current clock value and
advances it, so timestamps are strictly increasing in insertion order). -/
structure LogDb where
  requests : List ReqRow
  responses : List RespRow
  nextReqId : Nat
  nextRespId : Nat
  clock : Nat
deriving DecidableEq, Repr

/-- `ApiRequest` (types/index.ts lines 88-93): endpoint/method are plain
strings; headers/body are optional JavaScript values (`Js.undef` = absent). -/
structure ApiRequest where
  endpoint : String
  method : String
  headers : Js
  body : Js

/-- `ApiResponseLog` (types/index.ts lines 95-101). -/
structure ApiResponseLog where
  requestId : Nat
  statusCode : Int
  headers : Js
  body : Js
  responseTimeMs : Nat

namespace ApiLogRepository

/-- `ApiLogRepository.logRequest` (api-log.repository.ts lines 53-72): the
effect of the successful `INSERT INTO api_test.api_requests (endpoint,
method, headers, body) VALUES ($1,$2,$3,$4) RETURNING id` — headers/body
serialized by the truthiness idiom, endpoint/method stored verbatim without
validation, the store-generated id returned. -/
def logRequest (db : LogDb) (r : ApiRequest) : LogDb × Nat :=
  let headersJson := serializeJson r.headers
  let bodyJson := serializeJson r.body
  let row : ReqRow :=
    { id := db.nextReqId, endpoint := r.endpoint, method := r.method
      headers := headersJson, body := bodyJson, timestamp := db.clock }
  ({ db with
      requests := db.requests ++ [row]
      nextReqId := db.nextReqId + 1
      clock := db.clock + 1 },
   db.nextReqId)

/-- `ApiLogRepository.logResponse` (api-log.repository.ts lines 82-102): the
effect of the successful `INSERT INTO api_test.api_responses (request_id,
status_code, headers, body, response_time_ms) VALUES ($1,$2,$3,$4,$5)
RETURNING id`.  (The foreign-key constraint is not re-checked here: the
client only ever passes an id previously returned by `logRequest`, and a
store-side constraint failure is injected by the oracle like any other
store error.) -/
def logResponse (db : LogDb) (r : ApiResponseLog) : LogDb × Nat :=
  let headersJson := serializeJson r.headers
  let bodyJson := serializeJson r.body
  let row : RespRow :=
    { id := db.nextRespId, requestId := r.requestId, statusCode := r.statusCode
      headers := headersJson, body := bodyJson
      responseTimeMs := r.responseTimeMs, timestamp := db.clock }
  ({ db with
      responses := db.responses ++ [row]
      nextRespId := db.nextRespId + 1
      clock := db.clock + 1 },
   db.nextRespId)

end ApiLogRepository

/-- The store's metadata catalog, as consulted by the Schema Provisioner's
existence checks (`information_schema.schemata` /
`information_schema.tables`): the set of schemas and of (schema, table)
pairs that currently exist. -/
structure Catalog where
  schemas : List String
  tables : List (String × String)
deriving DecidableEq, Repr

namespace DatabaseUtil

/-- `DatabaseUtil.ensureSchema` (database.util.ts lines 36-52): query the
catalog for the schema; if absent, execute `CREATE SCHEMA IF NOT EXISTS
<name>;`.  Returns the catalog after the call together with the list of DDL
creation statements actually executed (the existence check itself is a pure
read and appears in no trace). -/
def ensureSchema (c : Catalog) (schemaName : String) : Catalog × List String :=
  if schemaName ∈ c.schemas then
    (c, [])
  else
    ({ c with schemas := c.schemas ++ [schemaName] },
     ["CREATE SCHEMA IF NOT EXISTS " ++ schemaName ++ ";"])

/-- `DatabaseUtil.ensureTable` (database.util.ts lines 65-86): query the
catalog for (schema, table); if absent, execute the caller-supplied
`createTableQuery`.  In this repository `ensureTable` is invoked only from
`initializeDatabase`, with a `CREATE TABLE IF NOT EXISTS
<schemaName>.<tableName> (...)` statement, so executing the supplied DDL is
modelled as creating exactly that (schema, table) catalog entry. -/
def ensureTable (c : Catalog) (schemaName tableName createTableQuery : String) :
    Catalog × List String :=
  if (schemaName, tableName) ∈ c.tables then
    (c, [])
  else
    ({ c with tables := c.tables ++ [(schemaName, tableName)] }, [createTableQuery])

/-- The `api_requests` DDL of `DatabaseUtil.initializeDatabase`
(database.util.ts lines 124-133). -/
def createRequestsTableQuery : String :=
  "CREATE TABLE IF NOT EXISTS api_test.api_requests (" ++
  "id SERIAL PRIMARY KEY, endpoint VARCHAR(500) NOT NULL, " ++
  "method VARCHAR(10) NOT NULL, headers JSONB, body JSONB, " ++
  "timestamp TIMESTAMP DEFAULT CURRENT_TIMESTAMP);"

/-- The `api_responses` DDL of `DatabaseUtil.initializeDatabase`
(database.util.ts lines 137-147). -/
def createResponsesTableQuery : String :=
  "CREATE TABLE IF NOT EXISTS api_test.api_responses (" ++
  "id SERIAL PRIMARY KEY, " ++
  "request_id INTEGER REFERENCES api_test.api_requests(id) ON DELETE CASCADE, " ++
  "status_code INTEGER NOT NULL, headers JSONB, body JSONB, " ++
  "response_time_ms INTEGER, timestamp TIMESTAMP DEFAULT CURRENT_TIMESTAMP);"

/-- `DatabaseUtil.initializeDatabase` (database.util.ts lines 117-151):
ensure the `api_test` schema, then the `api_requests` table, then the
`api_responses` table; the trace concatenates the DDL statements the three
steps executed. -/
def initializeDatabase (c : Catalog) : Catalog × List String :=
  let schemaName := "api_test"
  let s1 := ensureSchema c schemaName
  let s2 := ensureTable s1.1 schemaName "api_requests" createRequestsTableQuery
  let s3 := ensureTable s2.1 schemaName "api_responses" createResponsesTableQuery
  (s3.1, s1.2 ++ s2.2 ++ s3.2)

end DatabaseUtil

/-- Mutable state of the `DatabaseService` singleton
(database.service.ts lines 33-50): the connection pool handle, the
TestContainers container handle, and the container-mode flag.  `Option
Unit` models presence of the live handle (`null` ⇝ `none`). -/
structure DbConnSt where
  pool : Option Unit
  container : Option Unit
  isTestContainerMode : Bool
deriving DecidableEq, Repr

/-- The freshly constructed `DatabaseService` (private constructor: all
handles null, container mode off). -/
def freshDbConn : DbConnSt := { pool := none, container := none, isTestContainerMode := false }

/-- Observable events of `DatabaseService.initialize`, used to state that
the already-initialized path only logs and creates nothing. -/
inductive InitEvent where
  | logAlreadyInitialized
  | containerStarted
  | poolCreated
  | livenessProbe
  | schemaInitialized
deriving DecidableEq, Repr

namespace DatabaseService

/-- `DatabaseService.getInstance` (database.service.ts lines 58-63): the
process-wide singleton slot (`none` = not yet constructed).  Returns the
updated slot and the instance handed to the caller. -/
def getInstance (slot : Option DbConnSt) : Option DbConnSt × DbConnSt :=
  match slot with
  | some s => (some s, s)
  | none => (some freshDbConn, freshDbConn)

/-- `DatabaseService.initialize` (database.service.ts lines 71-90): no-op
(log and return) if a pool already exists; otherwise start the ephemeral
container (when `useTestContainer` and not production) or build the pool
from configuration and run one liveness probe (`SELECT NOW()`), whose
failure (`probeOk = false`) is thrown after the pool field was already
assigned; finally acquire a client and run
`DatabaseUtil.initializeDatabase`.  Returns the thrown error (if any), the
service state, the store catalog, and the event trace. -/
def initializeService (s : DbConnSt) (cat : Catalog)
    (useTestContainer isProduction probeOk : Bool) :
    Except String Unit × DbConnSt × Catalog × List InitEvent :=
  if s.pool.isSome then
    (Except.ok (), s, cat, [InitEvent.logAlreadyInitialized])
  else if useTestContainer && !isProduction then
    let s1 : DbConnSt := { pool := some (), container := some (), isTestContainerMode := true }
    let cat1 := (DatabaseUtil.initializeDatabase cat).1
    (Except.ok (), s1, cat1,
     [InitEvent.containerStarted, InitEvent.poolCreated, InitEvent.schemaInitialized])
  else
    let s1 : DbConnSt := { s with pool := some () }
    if probeOk then
      let cat1 := (DatabaseUtil.initializeDatabase cat).1
      (Except.ok (), s1, cat1,
       [InitEvent.poolCreated, InitEvent.livenessProbe, InitEvent.schemaInitialized])
    else
      (Except.error "Failed to connect to PostgreSQL", s1, cat,
       [InitEvent.poolCreated, InitEvent.livenessProbe])

/-- `DatabaseService.isInitialized` (database.service.ts lines 192-194):
true iff a pool currently exists. -/
def isInitialized (s : DbConnSt) : Bool := s.pool.isSome

end DatabaseService

/-- A thrown JavaScript error value, restricted to the two properties the
client reads in `logErrorResponse`: `error.status` (absent ⇝ `none`; a
present falsy `0` is representable as `some 0`) and `error.message`. -/
structure JsError where
  status : Option Int
  message : Option String
deriving DecidableEq, Repr

/-- A Playwright `APIResponse` as observed by the client: the status code
and the three lazy accessors — `json()` (`none` = the accessor throws),
`text()` (`none` = throws), `headers()` (`none` = throws). -/
structure NetResponse where
  status : Int
  jsonBody : Option Js
  textBody : Option String
  respHeaders : Option (List (String × String))

/-- Oracle resolving the awaited effects of one `ApiClientService.get`
call: whether the request INSERT throws (`reqWrite`), the network call's
outcome (`net`), whether the success-path response INSERT throws
(`respWrite`), whether the error-path response INSERT throws (`errWrite`),
and the measured wall-clock duration (`elapsed`, for `Date.now()`
differences). -/
structure GetOracle where
  reqWrite : Option JsError
  net : Except JsError NetResponse
  respWrite : Option JsError
  errWrite : Option JsError
  elapsed : Nat

/-- Externally observable side events of one client call (beyond the store
state), used to state that the network call is or is not performed and
that a double logging failure is only warned about on the console. -/
inductive Event where
  | netCall (url : String)
  | consoleError
deriving DecidableEq, Repr

/-- Characters `URLSearchParams` leaves unescaped
(`application/x-www-form-urlencoded`: ASCII alphanumerics and `*-._`). -/
def urlParamSafeChar (c : Char) : Bool :=
  c.isAlphanum && c.toNat < 128 || c = '*' || c = '-' || c = '.' || c = '_'

/-- Hex digit for percent-encoding. -/
def hexDigit (n : Nat) : Char :=
  if n < 10 then Char.ofNat ('0'.toNat + n) else Char.ofNat ('A'.toNat + n - 10)

/-- Percent-encode one byte. -/
def percentEncodeByte (b : Nat) : String :=
  String.mk ['%', hexDigit (b / 16 % 16), hexDigit (b % 16)]

/-- `application/x-www-form-urlencoded` encoding of one component, as
`URLSearchParams.toString()` performs it: safe characters kept, space
becomes `+`, other characters percent-encoded bytewise (UTF-8). -/
def urlParamEncode (s : String) : String :=
  String.join (s.data.map fun c =>
    if urlParamSafeChar c then String.singleton c
    else if c = ' ' then "+"
    else String.join ((String.singleton c).toUTF8.toList.map fun b =>
      percentEncodeByte b.toNat))

/-- `new URLSearchParams(params).toString()`: `k1=v1&k2=v2` with both keys
and values form-urlencoded. -/
def urlSearchParamsToString (params : List (String × String)) : String :=
  String.intercalate "&" (params.map fun kv =>
    urlParamEncode kv.1 ++ "=" ++ urlParamEncode kv.2)

namespace ApiClientService

/-- The client state relevant to the audit pipeline
(api-client.service.ts lines 27-56): the configured base URL and whether
`logRepository` is non-null. -/
structure St where
  baseUrl : String
  hasLogRepository : Bool

/-- The constructor (api-client.service.ts lines 43-56): the repository is
created only when `enableDbLogging` is requested *and*
`DatabaseService.getInstance().isInitialized()` holds at construction time;
the field is never written again afterwards. -/
def mk_ (baseUrl : String) (enableDbLogging dbInitializedNow : Bool) : St :=
  { baseUrl := baseUrl, hasLogRepository := enableDbLogging && dbInitializedNow }

/-- `endpoint.startsWith('http')`, modelled on the character list (the
logical model of a string); JavaScript `String.prototype.startsWith` is
plain character-prefix comparison. -/
def startsWithModel (s pre : String) : Bool := pre.data.isPrefixOf s.data

/-- `buildUrl` (api-client.service.ts lines 302-311): prefix with the base
URL unless the endpoint starts with the literal string `"http"`; when a
`params` object was supplied (even an empty one), append `?` and the
URL-encoded query string. -/
def buildUrl (baseUrl endpoint : String) (params : Option (List (String × String))) :
    String :=
  let url := if startsWithModel endpoint "http" then endpoint else baseUrl ++ endpoint
  match params with
  | none => url
  | some ps => url ++ "?" ++ urlSearchParamsToString ps

/-- `error.status || 500` (api-client.service.ts line 378): the error's own
status when present and truthy (nonzero), else 500. -/
def jsErrStatus (e : JsError) : Int :=
  match e.status with
  | some s => if s = 0 then 500 else s
  | none => 500

/-- `error.message || 'Unknown error'` (api-client.service.ts line 380). -/
def jsErrMsg (e : JsError) : String :=
  match e.message with
  | some m => if m = "" then "Unknown error" else m
  | none => "Unknown error"

/-- `logErrorResponse` (api-client.service.ts lines 364-389), reached with
a non-null repository and a captured request id `rid`: build the error
`ApiResponseLog` (status `error.status || 500`, empty headers object, body
`{ error: error.message || 'Unknown error' }`), try the repository write
(outcome chosen by `o.errWrite`), and swallow a write failure with a
console warning only. -/
def logErrorResponseModel (db : LogDb) (o : GetOracle) (rid : Nat) (e : JsError) :
    LogDb × List Event :=
  let responseLog : ApiResponseLog :=
    { requestId := rid, statusCode := jsErrStatus e
      headers := Js.obj [], body := Js.obj [("error", Js.str (jsErrMsg e))]
      responseTimeMs := o.elapsed }
  match o.errWrite with
  | some _ => (db, [Event.consoleError])
  | none => ((ApiLogRepository.logResponse db responseLog).1, [])

/-- `get` (api-client.service.ts lines 63-99).  Step order as in source:
build the URL and the `ApiRequest` record (headers `options.headers || {}`,
no body field for GET); if the repository is non-null, `await
logRequest` (a throw here propagates, before any network call); perform the
network call; on success, if an id was captured, run the private
`logResponse` (lines 318-357: body via `json()` falling back to `text()`
falling back to null, headers via `headers()` falling back to `{}`, then
the repository write) — note that this call sits *inside* the try block, so
its failure is caught by the same catch as a transport error; on a caught
error, if an id was captured, run `logErrorResponse`, then re-throw the
caught error.  The other four verb methods (post/put/patch/delete, lines
106-295) follow the identical logging skeleton and differ only in the
request record and the underlying verb; `get` stands for all five.
Returns (outcome delivered to the caller, store state, event trace). -/
def get (c : St) (db : LogDb) (o : GetOracle) (endpoint : String)
    (headers : Option (List (String × String)))
    (params : Option (List (String × String))) :
    Except JsError NetResponse × LogDb × List Event :=
  let url := buildUrl c.baseUrl endpoint params
  let request : ApiRequest :=
    { endpoint := url, method := "GET"
      headers := Js.obj ((headers.getD []).map fun kv => (kv.1, Js.str kv.2))
      body := Js.undef }
  if c.hasLogRepository then
    match o.reqWrite with
    | some e => (Except.error e, db, [])
    | none =>
      let r1 := ApiLogRepository.logRequest db request
      let db1 := r1.1
      let rid := r1.2
      match o.net with
      | Except.ok resp =>
        let responseBody : Js :=
          match resp.jsonBody with
          | some j => j
          | none =>
            match resp.textBody with
            | some t => Js.str t
            | none => Js.null
        let responseHeaders : Js :=
          Js.obj ((resp.respHeaders.getD []).map fun kv => (kv.1, Js.str kv.2))
        let responseLog : ApiResponseLog :=
          { requestId := rid, statusCode := resp.status
            headers := responseHeaders, body := responseBody
            responseTimeMs := o.elapsed }
        match o.respWrite with
        | none =>
          let db2 := (ApiLogRepository.logResponse db1 responseLog).1
          (Except.ok resp, db2, [Event.netCall url])
        | some w =>
          let r2 := logErrorResponseModel db1 o rid w
          (Except.error w, r2.1, Event.netCall url :: r2.2)
      | Except.error e =>
        let r2 := logErrorResponseModel db1 o rid e
        (Except.error e, r2.1, Event.netCall url :: r2.2)
  else
    (o.net, db, [Event.netCall url])

end ApiClientService

/-! ### Read queries of the Log Store

`ORDER BY timestamp DESC` is embedded as an insertion sort by descending
key; the SQL `LIKE` operator of `getRequestsByEndpoint` is embedded with
its full PostgreSQL semantics (`%`/`_` wildcards, backslash escape). -/

/-- Insert `x` in front of the first element whose key is not larger
(descending insertion step of `ORDER BY <key> DESC`). -/
def insertByKeyDesc (key : α → Nat) (x : α) : List α → List α
  | [] => [x]
  | y :: ys => if key y ≤ key x then x :: y :: ys else y :: insertByKeyDesc key x ys

/-- `ORDER BY <key> DESC` on a bag of rows. -/
def sortByKeyDesc (key : α → Nat) : List α → List α
  | [] => []
  | x :: xs => insertByKeyDesc key x (sortByKeyDesc key xs)

/-- One step of the PostgreSQL `LIKE` matcher, with explicit fuel (every
recursive call shrinks `pattern.length + s.length`, so
`pattern.length + s.length + 1` fuel is always enough; fuel `0` is never
reached from `likeMatch`).  `%` matches any sequence, `_` any single
character, `\\c` the literal character `c`; a pattern ending in a bare
escape character matches nothing (PostgreSQL raises an error there; the
patterns this repository builds always end in `%`). -/
def likeAux : Nat → List Char → List Char → Bool
  | 0, _, _ => false
  | _ + 1, [], s => s.isEmpty
  | fuel + 1, p :: ps, s =>
    if p = '%' then
      likeAux fuel ps s ||
        (match s with
         | [] => false
         | _ :: s' => likeAux fuel (p :: ps) s')
    else if p = '_' then
      (match s with
       | [] => false
       | _ :: s' => likeAux fuel ps s')
    else if p = '\\' then
      (match ps, s with
       | pe :: ps', c :: s' => (c == pe) && likeAux fuel ps' s'
       | _, _ => false)
    else
      (match s with
       | [] => false
       | c :: s' => (c == p) && likeAux fuel ps s')

/-- PostgreSQL `s LIKE pattern` (case-sensitive). -/
def likeMatch (pat s : List Char) : Bool := likeAux (pat.length + s.length + 1) pat s

/-- Executable prefix test (`p` is a leading segment of `s`). -/
def prefB : List Char → List Char → Bool
  | [], _ => true
  | _ :: _, [] => false
  | p :: ps, c :: s => (c == p) && prefB ps s

/-- Executable substring-containment test (`p` occurs contiguously in `s`). -/
def subB (p : List Char) : List Char → Bool
  | [] => prefB p []
  | c :: s' => prefB p (c :: s') || subB p s'

/-- A `LIKE` argument with no wildcard (`%`, `_`) and no escape character:
for such a pattern `p`, `LIKE '%p%'` is exactly case-sensitive substring
containment. -/
def likePatClean (p : String) : Bool :=
  p.data.all fun c => !(c == '%') && !(c == '_') && !(c == '\\')

/-- `ApiLogRepository.getRequestsByEndpoint` (api-log.repository.ts lines
169-177): `SELECT * FROM api_test.api_requests WHERE endpoint LIKE
'%<pattern>%' ORDER BY timestamp DESC`. -/
def ApiLogRepository.getRequestsByEndpoint (db : LogDb) (pat : String) : List ReqRow :=
  sortByKeyDesc (fun r => r.timestamp)
    (db.requests.filter fun r => likeMatch ("%" ++ pat ++ "%").data r.endpoint.data)

/-- A row of the `getFailedResponses` result set: the joined request's
endpoint and method together with all columns of the response row
(`SELECT r.endpoint, r.method, res.*`). -/
structure FailedRow where
  endpoint : String
  method : String
  resp : RespRow
deriving DecidableEq, Repr

/-- The inner join `FROM api_test.api_responses res JOIN
api_test.api_requests r ON r.id = res.request_id`, in response-major
order. -/
def joinRows (reqs : List ReqRow) : List RespRow → List FailedRow
  | [] => []
  | res :: rest =>
      (reqs.filter fun r => r.id == res.requestId).map
        (fun r => { endpoint := r.endpoint, method := r.method, resp := res })
      ++ joinRows reqs rest

/-- `ApiLogRepository.getFailedResponses` (api-log.repository.ts lines
204-217): the inner join filtered to `res.status_code >= 400`, ordered by
`res.timestamp DESC`.  A pure read: no `LogDb` state is produced or
modified by any read query. -/
def ApiLogRepository.getFailedResponses (db : LogDb) : List FailedRow :=
  sortByKeyDesc (fun j => j.resp.timestamp)
    ((joinRows db.requests db.responses).filter fun j => decide (400 ≤ j.resp.statusCode))

/-- Modelled from the spec: "the endpoint is already an absolute URL"
(§4.4 step 1).  An absolute URL begins with a URI scheme — a letter
followed by letters/digits/`+`/`-`/`.` — terminated by a colon.  (Used
only to compare the spec's wording against the code's
`endpoint.startsWith('http')` check.) -/
def scanSchemeTail : List Char → Bool
  | [] => false
  | c :: r =>
    if c = ':' then true
    else (c.isAlphanum || c = '+' || c = '-' || c = '.') && scanSchemeTail r

/-- Modelled from the spec: absolute-URL test (see `scanSchemeTail`). -/
def specIsAbsoluteUrl (s : String) : Bool :=
  match s.data with
  | [] => false
  | c :: rest => c.isAlpha && scanSchemeTail rest

/-! ### Helper lemmas -/

theorem insertByKeyDesc_all_lt (key : α → Nat) (x : α) :
    ∀ l : List α, (∀ y ∈ l, key x < key y) → insertByKeyDesc key x l = l ++ [x] := by
  intro l
  induction l with
  | nil => intro _; rfl
  | cons y ys ih =>
    intro h
    have hy : key x < key y := h y (by simp)
    simp only [insertByKeyDesc]
    rw [if_neg (by omega)]
    rw [ih (fun z hz => h z (by simp [hz]))]
    simp

theorem sortByKeyDesc_of_strictAsc (key : α → Nat) :
    ∀ l : List α, l.Pairwise (fun a b => key a < key b) →
      sortByKeyDesc key l = l.reverse := by
  intro l
  induction l with
  | nil => intro _; rfl
  | cons x xs ih =>
    intro h
    rcases List.pairwise_cons.mp h with ⟨hx, hxs⟩
    simp only [sortByKeyDesc]
    rw [ih hxs, insertByKeyDesc_all_lt key x xs.reverse
      (fun y hy => hx y (List.mem_reverse.mp hy))]
    simp

theorem insertByKeyDesc_perm (key : α → Nat) (x : α) :
    ∀ l : List α, (insertByKeyDesc key x l).Perm (x :: l) := by
  intro l
  induction l with
  | nil => simp [insertByKeyDesc]
  | cons y ys ih =>
    simp only [insertByKeyDesc]
    by_cases h : key y ≤ key x
    · rw [if_pos h]
    · rw [if_neg h]
      exact ((ih.cons y).trans (List.Perm.swap x y ys))

theorem sortByKeyDesc_perm (key : α → Nat) :
    ∀ l : List α, (sortByKeyDesc key l).Perm l := by
  intro l
  induction l with
  | nil => simp [sortByKeyDesc]
  | cons x xs ih =>
    simp only [sortByKeyDesc]
    exact (insertByKeyDesc_perm key x (sortByKeyDesc key xs)).trans (ih.cons x)

theorem likeAux_zero (p s : List Char) : likeAux 0 p s = false := rfl

theorem likeAux_nil (f : Nat) (s : List Char) : likeAux (f + 1) [] s = s.isEmpty := rfl

theorem likeAux_cons (f : Nat) (p : Char) (ps s : List Char) :
    likeAux (f + 1) (p :: ps) s =
      (if p = '%' then
        likeAux f ps s ||
          (match s with
           | [] => false
           | _ :: s' => likeAux f (p :: ps) s')
      else if p = '_' then
        (match s with
         | [] => false
         | _ :: s' => likeAux f ps s')
      else if p = '\\' then
        (match ps, s with
         | pe :: ps', c :: s' => (c == pe) && likeAux f ps' s'
         | _, _ => false)
      else
        (match s with
         | [] => false
         | c :: s' => (c == p) && likeAux f ps s')) := rfl

theorem prefB_nil (s : List Char) : prefB [] s = true := rfl

theorem prefB_cons_nil (p : Char) (ps : List Char) : prefB (p :: ps) [] = false := rfl

theorem prefB_cons_cons (p : Char) (ps : List Char) (c : Char) (s : List Char) :
    prefB (p :: ps) (c :: s) = ((c == p) && prefB ps s) := rfl

theorem subB_nil (p : List Char) : subB p [] = prefB p [] := rfl

theorem subB_cons (p : List Char) (c : Char) (s' : List Char) :
    subB p (c :: s') = (prefB p (c :: s') || subB p s') := rfl

theorem likeAux_pct : ∀ fuel : Nat, ∀ s : List Char, s.length + 1 < fuel →
    likeAux fuel ['%'] s = true := by
  intro fuel
  induction fuel with
  | zero => intro s h; omega
  | succ f ih =>
    intro s h
    cases s with
    | nil =>
      obtain ⟨g, rfl⟩ : ∃ g, f = g + 1 :=
        ⟨f - 1, by simp only [List.length_nil] at h; omega⟩
      simp [likeAux_cons, likeAux_nil]
    | cons c s' =>
      have hb : s'.length + 1 < f := by simp only [List.length_cons] at h; omega
      simp [likeAux_cons, ih s' hb]

theorem likeAux_pref : ∀ fuel : Nat, ∀ p s : List Char,
    (∀ c ∈ p, c ≠ '%' ∧ c ≠ '_' ∧ c ≠ '\\') →
    p.length + 1 + s.length < fuel →
    likeAux fuel (p ++ ['%']) s = prefB p s := by
  intro fuel
  induction fuel with
  | zero => intro p s _ h; omega
  | succ f ih =>
    intro p s hc h
    cases p with
    | nil =>
      rw [List.nil_append,
        likeAux_pct (f + 1) s (by simp only [List.length_nil] at h; omega)]
      rfl
    | cons a p' =>
      have ha := hc a (by simp)
      have hc' : ∀ c ∈ p', c ≠ '%' ∧ c ≠ '_' ∧ c ≠ '\\' :=
        fun c hcm => hc c (List.mem_cons_of_mem _ hcm)
      cases s with
      | nil =>
        simp [likeAux_cons, ha.1, ha.2.1, ha.2.2, prefB_cons_nil]
      | cons c s' =>
        have hb : p'.length + 1 + s'.length < f := by
          simp only [List.length_cons] at h; omega
        simp [likeAux_cons, ha.1, ha.2.1, ha.2.2, prefB_cons_cons, ih p' s' hc' hb]

theorem likeAux_sub : ∀ fuel : Nat, ∀ p s : List Char,
    (∀ c ∈ p, c ≠ '%' ∧ c ≠ '_' ∧ c ≠ '\\') →
    p.length + 2 + s.length < fuel →
    likeAux fuel ('%' :: (p ++ ['%'])) s = subB p s := by
  intro fuel
  induction fuel with
  | zero => intro p s _ h; omega
  | succ f ih =>
    intro p s hc h
    cases s with
    | nil =>
      have hb : p.length + 1 + ([] : List Char).length < f := by
        simp only [List.length_nil] at h ⊢; omega
      rw [likeAux_cons, if_pos rfl, likeAux_pref f p [] hc hb]
      simp [subB_nil]
    | cons c s' =>
      have hb1 : p.length + 1 + (c :: s').length < f := by
        simp only [List.length_cons] at h ⊢; omega
      have hb2 : p.length + 2 + s'.length < f := by
        simp only [List.length_cons] at h; omega
      rw [likeAux_cons, if_pos rfl]
      simp only []
      rw [likeAux_pref f p (c :: s') hc hb1, ih p s' hc hb2, subB_cons]

theorem likeMatch_clean (p s : String) (hc : likePatClean p = true) :
    likeMatch ("%" ++ p ++ "%").data s.data = subB p.data s.data := by
  have hc' : ∀ c ∈ p.data, c ≠ '%' ∧ c ≠ '_' ∧ c ≠ '\\' := by
    simp only [likePatClean, List.all_eq_true, Bool.and_eq_true, Bool.not_eq_true',
      beq_eq_false_iff_ne] at hc
    exact fun c h => ⟨(hc c h).1.1, (hc c h).1.2, (hc c h).2⟩
  have hdata : ("%" ++ p ++ "%").data = '%' :: (p.data ++ ['%']) := by
    simp [String.data_append]
  rw [likeMatch, hdata]
  exact likeAux_sub _ p.data s.data hc'
    (by simp only [List.length_cons, List.length_append, List.length_singleton]; omega)

theorem prefB_iff : ∀ p s : List Char, prefB p s = true ↔ p <+: s := by
  intro p
  induction p with
  | nil => intro s; simp [prefB_nil]
  | cons a p' ih =>
    intro s
    cases s with
    | nil =>
      simp only [prefB_cons_nil]
      simp
    | cons c s' =>
      rw [prefB_cons_cons, Bool.and_eq_true, beq_iff_eq, List.cons_prefix_cons, ih s']
      exact and_congr_left' eq_comm

theorem subB_iff (p : List Char) : ∀ s : List Char, subB p s = true ↔ p <:+: s := by
  intro s
  induction s with
  | nil =>
    simp only [subB_nil]
    cases p with
    | nil => simp [prefB_nil]
    | cons a p' =>
      simp only [prefB_cons_nil]
      simp
  | cons c s' ih =>
    simp [subB_cons, prefB_iff, ih, List.infix_cons_iff]

theorem filter_id_eq_single {k : Nat} :
    ∀ {l : List ReqRow}, (l.map (fun r => r.id)).Nodup →
      ∀ {r : ReqRow}, r ∈ l → r.id = k →
        l.filter (fun x => x.id == k) = [r] := by
  intro l
  induction l with
  | nil => intro _ r hr; exact absurd hr (List.not_mem_nil r)
  | cons x xs ih =>
    intro hnd r hr hk
    rw [List.map_cons, List.nodup_cons] at hnd
    rcases List.mem_cons.mp hr with hrx | hrxs
    · subst hrx
      have htail : xs.filter (fun y => y.id == k) = [] := by
        rw [List.filter_eq_nil_iff]
        intro y hy
        have : y.id ≠ k := by
          intro hyk
          exact hnd.1 (by
            rw [hk, ← hyk]
            exact List.mem_map.mpr ⟨y, hy, rfl⟩)
        simpa using this
      rw [List.filter_cons_of_pos (by simpa using hk), htail]
    · have hxk : ¬(x.id == k) = true := by
        have : x.id ≠ k := by
          intro hxk
          exact hnd.1 (by
            rw [hxk, ← hk]
            exact List.mem_map.mpr ⟨r, hrxs, rfl⟩)
        simpa using this
      rw [List.filter_cons_of_neg (by simpa using hxk)]
      exact ih hnd.2 hrxs hk

theorem joinRows_map_resp (reqs : List ReqRow) :
    ∀ resps : List RespRow,
      (reqs.map (fun r => r.id)).Nodup →
      (∀ res ∈ resps, ∃ r ∈ reqs, r.id = res.requestId) →
      (joinRows reqs resps).map (fun j => j.resp) = resps := by
  intro resps
  induction resps with
  | nil => intro _ _; rfl
  | cons res rest ih =>
    intro hnd hpres
    obtain ⟨r, hr, hid⟩ := hpres res (by simp)
    rw [joinRows, filter_id_eq_single hnd hr hid, List.map_append,
      ih hnd (fun x hx => hpres x (List.mem_cons_of_mem _ hx))]
    rfl

theorem mem_joinRows {reqs : List ReqRow} {j : FailedRow} :
    ∀ {resps : List RespRow}, j ∈ joinRows reqs resps →
      ∃ res ∈ resps, ∃ r ∈ reqs, r.id = res.requestId ∧
        j = { endpoint := r.endpoint, method := r.method, resp := res } := by
  intro resps
  induction resps with
  | nil => intro h; exact absurd h (List.not_mem_nil j)
  | cons res rest ih =>
    intro hj
    rw [joinRows] at hj
    rcases List.mem_append.mp hj with hl | hr
    · obtain ⟨r, hrf, hrj⟩ := List.mem_map.mp hl
      obtain ⟨hrm, hrid⟩ := List.mem_filter.mp hrf
      exact ⟨res, by simp, r, hrm, by simpa using hrid, hrj.symm⟩
    · obtain ⟨res', hres', rest'⟩ := ih hr
      exact ⟨res', List.mem_cons_of_mem _ hres', rest'⟩

theorem ensureSchema_of_mem {c : Catalog} {n : String} (h : n ∈ c.schemas) :
    DatabaseUtil.ensureSchema c n = (c, []) := by
  simp [DatabaseUtil.ensureSchema, h]

theorem ensureSchema_mem (c : Catalog) (n : String) :
    n ∈ (DatabaseUtil.ensureSchema c n).1.schemas := by
  by_cases h : n ∈ c.schemas <;> simp [DatabaseUtil.ensureSchema, h]

theorem ensureSchema_tables (c : Catalog) (n : String) :
    (DatabaseUtil.ensureSchema c n).1.tables = c.tables := by
  by_cases h : n ∈ c.schemas <;> simp [DatabaseUtil.ensureSchema, h]

theorem ensureSchema_nodup {c : Catalog} (n : String) (h : c.schemas.Nodup) :
    (DatabaseUtil.ensureSchema c n).1.schemas.Nodup := by
  by_cases hm : n ∈ c.schemas
  · simpa [DatabaseUtil.ensureSchema, hm] using h
  · simp [DatabaseUtil.ensureSchema, hm, List.nodup_append, h]

theorem ensureTable_of_mem {c : Catalog} {s t : String} (q : String)
    (h : (s, t) ∈ c.tables) :
    DatabaseUtil.ensureTable c s t q = (c, []) := by
  simp [DatabaseUtil.ensureTable, h]

theorem ensureTable_mem (c : Catalog) (s t q : String) :
    (s, t) ∈ (DatabaseUtil.ensureTable c s t q).1.tables := by
  by_cases h : (s, t) ∈ c.tables <;> simp [DatabaseUtil.ensureTable, h]

theorem ensureTable_mem_mono {c : Catalog} {a : String × String} (s t q : String)
    (h : a ∈ c.tables) :
    a ∈ (DatabaseUtil.ensureTable c s t q).1.tables := by
  by_cases hm : (s, t) ∈ c.tables <;> simp [DatabaseUtil.ensureTable, hm, h]

theorem ensureTable_schemas (c : Catalog) (s t q : String) :
    (DatabaseUtil.ensureTable c s t q).1.schemas = c.schemas := by
  by_cases h : (s, t) ∈ c.tables <;> simp [DatabaseUtil.ensureTable, h]

theorem ensureTable_nodup {c : Catalog} (s t q : String) (h : c.tables.Nodup) :
    (DatabaseUtil.ensureTable c s t q).1.tables.Nodup := by
  by_cases hm : (s, t) ∈ c.tables
  · simpa [DatabaseUtil.ensureTable, hm] using h
  · simp [DatabaseUtil.ensureTable, hm, List.nodup_append, h]

theorem initializeDatabase_of_mem {c : Catalog}
    (h1 : "api_test" ∈ c.schemas)
    (h2 : ("api_test", "api_requests") ∈ c.tables)
    (h3 : ("api_test", "api_responses") ∈ c.tables) :
    DatabaseUtil.initializeDatabase c = (c, []) := by
  simp [DatabaseUtil.initializeDatabase, ensureSchema_of_mem h1,
    ensureTable_of_mem _ h2, ensureTable_of_mem _ h3]

theorem initializeDatabase_schema_mem (c : Catalog) :
    "api_test" ∈ (DatabaseUtil.initializeDatabase c).1.schemas := by
  simp only [DatabaseUtil.initializeDatabase, ensureTable_schemas]
  exact ensureSchema_mem c "api_test"

theorem initializeDatabase_requests_mem (c : Catalog) :
    ("api_test", "api_requests") ∈ (DatabaseUtil.initializeDatabase c).1.tables := by
  simp only [DatabaseUtil.initializeDatabase]
  exact ensureTable_mem_mono _ _ _ (ensureTable_mem _ _ _ _)

theorem initializeDatabase_responses_mem (c : Catalog) :
    ("api_test", "api_responses") ∈ (DatabaseUtil.initializeDatabase c).1.tables := by
  simp only [DatabaseUtil.initializeDatabase]
  exact ensureTable_mem _ _ _ _

/-! ### Claim theorems -/

/-- C3 (confirmed): `ensureSchema`, `ensureTable` and `initializeDatabase`
are idempotent — a second call on the state left by the first finds the
object in the metadata catalog, issues no creation statement (empty DDL
trace), leaves the catalog unchanged, and (being a total function in the
model, where the only store statements issued are the trace) raises no
error; and none of the three ever introduces a duplicate schema or table
entry into a duplicate-free catalog. -/
theorem provisioning_idempotent (c : Catalog) (n s t q : String)
    (hs : c.schemas.Nodup) (ht : c.tables.Nodup) :
    DatabaseUtil.ensureSchema (DatabaseUtil.ensureSchema c n).1 n
        = ((DatabaseUtil.ensureSchema c n).1, []) ∧
    DatabaseUtil.ensureTable (DatabaseUtil.ensureTable c s t q).1 s t q
        = ((DatabaseUtil.ensureTable c s t q).1, []) ∧
    DatabaseUtil.initializeDatabase (DatabaseUtil.initializeDatabase c).1
        = ((DatabaseUtil.initializeDatabase c).1, []) ∧
    (DatabaseUtil.ensureSchema c n).1.schemas.Nodup ∧
    (DatabaseUtil.ensureTable c s t q).1.tables.Nodup ∧
    (DatabaseUtil.initializeDatabase c).1.schemas.Nodup ∧
    (DatabaseUtil.initializeDatabase c).1.tables.Nodup := by
  refine ⟨ensureSchema_of_mem (ensureSchema_mem c n),
    ensureTable_of_mem q (ensureTable_mem c s t q),
    initializeDatabase_of_mem (initializeDatabase_schema_mem c)
      (initializeDatabase_requests_mem c) (initializeDatabase_responses_mem c),
    ensureSchema_nodup n hs,
    ensureTable_nodup s t q ht,
    ?_, ?_⟩
  · simp only [DatabaseUtil.initializeDatabase, ensureTable_schemas]
    exact ensureSchema_nodup _ hs
  · simp only [DatabaseUtil.initializeDatabase]
    refine ensureTable_nodup _ _ _ (ensureTable_nodup _ _ _ ?_)
    rw [ensureSchema_tables]
    exact ht

/-- Witness for C3 at the empty catalog. -/
theorem provisioning_idempotent_witness :
    (Catalog.mk [] []).schemas.Nodup ∧ (Catalog.mk [] []).tables.Nodup ∧
    (DatabaseUtil.ensureSchema
        (DatabaseUtil.ensureSchema (Catalog.mk [] []) "api_test").1 "api_test"
      = ((DatabaseUtil.ensureSchema (Catalog.mk [] []) "api_test").1, []) ∧
     DatabaseUtil.ensureTable
        (DatabaseUtil.ensureTable (Catalog.mk [] []) "api_test" "api_requests"
          DatabaseUtil.createRequestsTableQuery).1
        "api_test" "api_requests" DatabaseUtil.createRequestsTableQuery
      = ((DatabaseUtil.ensureTable (Catalog.mk [] []) "api_test" "api_requests"
          DatabaseUtil.createRequestsTableQuery).1, []) ∧
     DatabaseUtil.initializeDatabase (DatabaseUtil.initializeDatabase (Catalog.mk [] [])).1
      = ((DatabaseUtil.initializeDatabase (Catalog.mk [] [])).1, []) ∧
     (DatabaseUtil.ensureSchema (Catalog.mk [] []) "api_test").1.schemas.Nodup ∧
     (DatabaseUtil.ensureTable (Catalog.mk [] []) "api_test" "api_requests"
        DatabaseUtil.createRequestsTableQuery).1.tables.Nodup ∧
     (DatabaseUtil.initializeDatabase (Catalog.mk [] [])).1.schemas.Nodup ∧
     (DatabaseUtil.initializeDatabase (Catalog.mk [] [])).1.tables.Nodup) :=
  ⟨List.nodup_nil, List.nodup_nil,
   provisioning_idempotent (Catalog.mk [] []) "api_test" "api_test" "api_requests"
     DatabaseUtil.createRequestsTableQuery List.nodup_nil List.nodup_nil⟩

/-- C5 (confirmed): `getInstance` always returns the same `DatabaseService`
instance (re-invoking it on the slot it produced returns that slot and
instance unchanged), and `initialize` on a service that already owns a pool
is a no-op: it returns without error, emits only the
"already initialized" log line (in particular no pool or container
creation event), and leaves both the service state and the store catalog
untouched. -/
theorem singleton_connection_manager (slot : Option DbConnSt) (s : DbConnSt)
    (cat : Catalog) (utc prod probe : Bool)
    (hp : s.pool = some ()) :
    DatabaseService.getInstance (DatabaseService.getInstance slot).1
        = ((DatabaseService.getInstance slot).1, (DatabaseService.getInstance slot).2) ∧
    DatabaseService.initializeService s cat utc prod probe
        = (Except.ok (), s, cat, [InitEvent.logAlreadyInitialized]) := by
  constructor
  · cases slot <;> rfl
  · simp [DatabaseService.initializeService, hp]

/-- Witness for C5: a service already holding a pool, an empty catalog. -/
theorem singleton_connection_manager_witness :
    (DbConnSt.mk (some ()) none false).pool = some () ∧
    (DatabaseService.getInstance (DatabaseService.getInstance none).1
        = ((DatabaseService.getInstance none).1, (DatabaseService.getInstance none).2) ∧
     DatabaseService.initializeService (DbConnSt.mk (some ()) none false)
        (Catalog.mk [] []) true false true
        = (Except.ok (), DbConnSt.mk (some ()) none false, Catalog.mk [] [],
           [InitEvent.logAlreadyInitialized])) :=
  ⟨rfl, singleton_connection_manager none (DbConnSt.mk (some ()) none false)
    (Catalog.mk [] []) true false true rfl⟩

/-- C10 (confirmed): a client constructed with `enableDbLogging = true`
while the `DatabaseService` is not initialized gets a null `logRepository`,
and every call then performs the real HTTP request with no logging at all
and no extra error: the network outcome is passed through unchanged, the
store state is untouched, and the only event is the network call itself.
The repository field is assigned only in the constructor and `get` never
re-consults `DatabaseService`, so logging stays silently disabled for this
client even if the database is initialized later (later initialization is
not even an input of `get`). -/
theorem logging_silently_disabled (baseUrl : String) (db : LogDb) (o : GetOracle)
    (endpoint : String) (headers params : Option (List (String × String))) :
    (ApiClientService.mk_ baseUrl true false).hasLogRepository = false ∧
    ApiClientService.get (ApiClientService.mk_ baseUrl true false) db o endpoint
        headers params
      = (o.net, db, [Event.netCall (ApiClientService.buildUrl baseUrl endpoint params)]) := by
  exact ⟨rfl, by simp [ApiClientService.get, ApiClientService.mk_]⟩

/-- C4 (confirmed): with logging enabled, a failure of the request-record
write (`logRequest`, before the network call) propagates to the caller
unsuppressed, the store state is unchanged, and the event trace is empty —
in particular the network call is never performed. -/
theorem logRequest_failure_propagates (c : ApiClientService.St) (db : LogDb)
    (o : GetOracle) (endpoint : String)
    (headers params : Option (List (String × String))) (e : JsError)
    (hrep : c.hasLogRepository = true) (hfail : o.reqWrite = some e) :
    ApiClientService.get c db o endpoint headers params
      = (Except.error e, db, ([] : List Event)) := by
  simp [ApiClientService.get, hrep, hfail]

/-- Witness for C4: the request INSERT throws "connection refused". -/
theorem logRequest_failure_propagates_witness :
    (ApiClientService.St.mk "https://dummyjson.com" true).hasLogRepository = true ∧
    (GetOracle.mk (some (JsError.mk none (some "connection refused")))
        (Except.error (JsError.mk none none)) none none 7).reqWrite
      = some (JsError.mk none (some "connection refused")) ∧
    ApiClientService.get (ApiClientService.St.mk "https://dummyjson.com" true)
        (LogDb.mk [] [] 1 1 0)
        (GetOracle.mk (some (JsError.mk none (some "connection refused")))
          (Except.error (JsError.mk none none)) none none 7)
        "/users/1" none none
      = (Except.error (JsError.mk none (some "connection refused")),
         LogDb.mk [] [] 1 1 0, ([] : List Event)) :=
  ⟨rfl, rfl,
   logRequest_failure_propagates (ApiClientService.St.mk "https://dummyjson.com" true)
     (LogDb.mk [] [] 1 1 0)
     (GetOracle.mk (some (JsError.mk none (some "connection refused")))
       (Except.error (JsError.mk none none)) none none 7)
     "/users/1" none none (JsError.mk none (some "connection refused")) rfl rfl⟩

/-- A store error thrown by a response INSERT, used in concrete instances. -/
def exDbErr : JsError := { status := none, message := some "insert failed: connection lost" }

/-- A transport error without a status property, used in concrete instances. -/
def exNetErr : JsError := { status := none, message := some "socket hang up" }

/-- A successful 200 response with a JSON body, used in concrete instances. -/
def exRespOk : NetResponse :=
  { status := 200, jsonBody := some (Js.obj [("id", Js.num 1)]), textBody := none
    respHeaders := some [("content-type", "application/json")] }

/-- C2 (confirmed): with logging enabled and a request id captured, a
transport error `e` leads to an attempt to log an error `ResponseRecord`
whose status is `error.status || 500` (500 when no status is carried, the
error's own status when it carries a nonzero one) and whose body is
`{ error: <the error's message> }`; if that write itself fails, the store
is left with no response row and only a console warning is emitted; and in
every case the original transport error `e` is re-raised to the caller. -/
theorem transport_error_logged_and_rethrown (c : ApiClientService.St) (db : LogDb)
    (o : GetOracle) (endpoint : String)
    (headers params : Option (List (String × String))) (e : JsError)
    (hrep : c.hasLogRepository = true) (hreq : o.reqWrite = none)
    (hnet : o.net = Except.error e) :
    (ApiClientService.get c db o endpoint headers params).1 = Except.error e ∧
    (o.errWrite = none →
      (ApiClientService.get c db o endpoint headers params).2.1.responses
        = db.responses ++
          [{ id := db.nextRespId, requestId := db.nextReqId
             statusCode := ApiClientService.jsErrStatus e
             headers := some (jsStringify (Js.obj []))
             body := some (jsStringify (Js.obj [("error", Js.str (ApiClientService.jsErrMsg e))]))
             responseTimeMs := o.elapsed, timestamp := db.clock + 1 }]) ∧
    (∀ u, o.errWrite = some u →
      (ApiClientService.get c db o endpoint headers params).2.1.responses = db.responses ∧
      Event.consoleError ∈ (ApiClientService.get c db o endpoint headers params).2.2) ∧
    (e.status = none → ApiClientService.jsErrStatus e = 500) ∧
    (∀ st, e.status = some st → st ≠ 0 → ApiClientService.jsErrStatus e = st) ∧
    (∀ m, e.message = some m → m ≠ "" → ApiClientService.jsErrMsg e = m) := by
  refine ⟨?_, ?_, ?_, ?_, ?_, ?_⟩
  · cases herr : o.errWrite <;>
      simp [ApiClientService.get, hrep, hreq, hnet,
        ApiClientService.logErrorResponseModel, herr]
  · intro herr
    simp [ApiClientService.get, hrep, hreq, hnet, ApiClientService.logErrorResponseModel,
      herr, ApiLogRepository.logRequest, ApiLogRepository.logResponse, serializeJson,
      Js.truthy]
  · intro u herr
    refine ⟨?_, ?_⟩ <;>
      simp [ApiClientService.get, hrep, hreq, hnet,
        ApiClientService.logErrorResponseModel, herr, ApiLogRepository.logRequest]
  · intro h0
    simp [ApiClientService.jsErrStatus, h0]
  · intro st hst hne
    simp [ApiClientService.jsErrStatus, hst, hne]
  · intro m hm hne
    simp [ApiClientService.jsErrMsg, hm, hne]

/-- Witness for C2: transport error "socket hang up" with a successful
error-record write. -/
theorem transport_error_logged_and_rethrown_witness :
    (ApiClientService.St.mk "https://dummyjson.com" true).hasLogRepository = true ∧
    (GetOracle.mk none (Except.error exNetErr) none none 12).reqWrite = none ∧
    (GetOracle.mk none (Except.error exNetErr) none none 12).net = Except.error exNetErr ∧
    (ApiClientService.get (ApiClientService.St.mk "https://dummyjson.com" true)
        (LogDb.mk [] [] 1 1 0)
        (GetOracle.mk none (Except.error exNetErr) none none 12) "/users/9" none none).1
      = Except.error exNetErr ∧
    (ApiClientService.get (ApiClientService.St.mk "https://dummyjson.com" true)
        (LogDb.mk [] [] 1 1 0)
        (GetOracle.mk none (Except.error exNetErr) none none 12)
        "/users/9" none none).2.1.responses
      = [] ++
        [{ id := 1, requestId := 1
           statusCode := ApiClientService.jsErrStatus exNetErr
           headers := some (jsStringify (Js.obj []))
           body := some (jsStringify
             (Js.obj [("error", Js.str (ApiClientService.jsErrMsg exNetErr))]))
           responseTimeMs := 12, timestamp := 0 + 1 }] :=
  ⟨rfl, rfl, rfl,
   (transport_error_logged_and_rethrown (ApiClientService.St.mk "https://dummyjson.com" true)
     (LogDb.mk [] [] 1 1 0) (GetOracle.mk none (Except.error exNetErr) none none 12)
     "/users/9" none none exNetErr rfl rfl rfl).1,
   (transport_error_logged_and_rethrown (ApiClientService.St.mk "https://dummyjson.com" true)
     (LogDb.mk [] [] 1 1 0) (GetOracle.mk none (Except.error exNetErr) none none 12)
     "/users/9" none none exNetErr rfl rfl rfl).2.1 rfl⟩

/-- C1 counterexample: with logging enabled, a captured request id, a
successful 200 HTTP response, and a failing response INSERT, the client
delivers the logging-write error to the caller instead of the real
response — the logging-write error does propagate past the client
boundary, contradicting the claim as stated. -/
theorem response_log_failure_counterexample :
    (ApiClientService.get (ApiClientService.St.mk "https://dummyjson.com" true)
        (LogDb.mk [] [] 1 1 0)
        (GetOracle.mk none (Except.ok exRespOk) (some exDbErr) (some exDbErr) 5)
        "/users/1" none none).1
      = Except.error exDbErr ∧
    Except.error exDbErr ≠ (Except.ok exRespOk : Except JsError NetResponse) :=
  ⟨rfl, fun h => Except.noConfusion h⟩

/-- C1 (corrected): after a successful network call, the real response is
returned unchanged only when the response-logging write succeeds.  When the
response-logging write fails, the failure is caught by the same handler as
a transport error: the client attempts to log an error `ResponseRecord`
built from the logging error (and if that second write also fails, only a
console warning is emitted and no response row is stored), and then
re-raises the logging-write error to the caller — a logging-write error
after the network call does propagate past the client boundary. -/
theorem response_log_failure_behavior (c : ApiClientService.St) (db : LogDb)
    (o : GetOracle) (endpoint : String)
    (headers params : Option (List (String × String))) (resp : NetResponse)
    (hrep : c.hasLogRepository = true) (hreq : o.reqWrite = none)
    (hnet : o.net = Except.ok resp) :
    (o.respWrite = none →
      (ApiClientService.get c db o endpoint headers params).1 = Except.ok resp) ∧
    (∀ w, o.respWrite = some w →
      (ApiClientService.get c db o endpoint headers params).1 = Except.error w ∧
      (∀ u, o.errWrite = some u →
        (ApiClientService.get c db o endpoint headers params).2.1.responses
            = db.responses ∧
        Event.consoleError ∈ (ApiClientService.get c db o endpoint headers params).2.2) ∧
      (o.errWrite = none →
        (ApiClientService.get c db o endpoint headers params).2.1.responses
          = db.responses ++
            [{ id := db.nextRespId, requestId := db.nextReqId
               statusCode := ApiClientService.jsErrStatus w
               headers := some (jsStringify (Js.obj []))
               body := some (jsStringify
                 (Js.obj [("error", Js.str (ApiClientService.jsErrMsg w))]))
               responseTimeMs := o.elapsed, timestamp := db.clock + 1 }])) := by
  constructor
  · intro hw
    simp [ApiClientService.get, hrep, hreq, hnet, hw]
  · intro w hw
    refine ⟨?_, ?_, ?_⟩
    · simp [ApiClientService.get, hrep, hreq, hnet, hw,
        ApiClientService.logErrorResponseModel]
    · intro u herr
      refine ⟨?_, ?_⟩ <;>
        simp [ApiClientService.get, hrep, hreq, hnet, hw,
          ApiClientService.logErrorResponseModel, herr, ApiLogRepository.logRequest]
    · intro herr
      simp [ApiClientService.get, hrep, hreq, hnet, hw,
        ApiClientService.logErrorResponseModel, herr, ApiLogRepository.logRequest,
        ApiLogRepository.logResponse, serializeJson, Js.truthy]

/-- Witness for C1's corrected theorem: both the successful-write case and
the failing-write case at concrete inputs. -/
theorem response_log_failure_behavior_witness :
    (ApiClientService.St.mk "https://dummyjson.com" true).hasLogRepository = true ∧
    (GetOracle.mk none (Except.ok exRespOk) none none 5).reqWrite = none ∧
    (GetOracle.mk none (Except.ok exRespOk) none none 5).net = Except.ok exRespOk ∧
    (ApiClientService.get (ApiClientService.St.mk "https://dummyjson.com" true)
        (LogDb.mk [] [] 1 1 0) (GetOracle.mk none (Except.ok exRespOk) none none 5)
        "/users/1" none none).1
      = Except.ok exRespOk :=
  ⟨rfl, rfl, rfl,
   (response_log_failure_behavior (ApiClientService.St.mk "https://dummyjson.com" true)
     (LogDb.mk [] [] 1 1 0) (GetOracle.mk none (Except.ok exRespOk) none none 5)
     "/users/1" none none exRespOk rfl rfl rfl).1 rfl⟩

/-- The C9 counterexample request: a POST whose body is *present* but
JavaScript-falsy (the number `0`). -/
def exFalsyBodyReq : ApiRequest :=
  { endpoint := "/users/add", method := "POST", headers := Js.undef, body := Js.num 0 }

/-- C9 counterexample: `logRequest` on a request whose body is present
(`0`, not absent) stores SQL NULL in the body column — null is *not*
stored exactly when the field is absent. -/
theorem logRequest_null_iff_absent_counterexample :
    exFalsyBodyReq.body ≠ Js.undef ∧
    ((ApiLogRepository.logRequest (LogDb.mk [] [] 1 1 0) exFalsyBodyReq).1.requests.map
        (fun r => r.body)) = [none] :=
  ⟨fun h => Js.noConfusion h, rfl⟩

/-- C9 (corrected): `logRequest` inserts exactly one row whose endpoint and
method are the given strings verbatim (any strings are accepted — the
function is total, with no whitelist or validation), whose headers/body
columns hold the JSON serialization of the respective field, and returns
the store-generated id of the inserted row; the serialization stores SQL
NULL exactly when the field's value is JavaScript-*falsy* (absent,
`null`, `false`, `0`, or the empty string) — not exactly when the field is
absent — and otherwise stores the `JSON.stringify` text. -/
theorem logRequest_serialization (db : LogDb) (r : ApiRequest) (v : Js) :
    (ApiLogRepository.logRequest db r).1.requests
      = db.requests ++
        [{ id := db.nextReqId, endpoint := r.endpoint, method := r.method
           headers := serializeJson r.headers, body := serializeJson r.body
           timestamp := db.clock }] ∧
    (ApiLogRepository.logRequest db r).2 = db.nextReqId ∧
    (ApiLogRepository.logRequest db r).1.responses = db.responses ∧
    (serializeJson v = none ↔ v.truthy = false) ∧
    (serializeJson v = none ∨ serializeJson v = some (jsStringify v)) := by
  refine ⟨rfl, rfl, rfl, ?_, ?_⟩
  · by_cases hv : v.truthy <;> simp [serializeJson, hv]
  · by_cases hv : v.truthy <;> simp [serializeJson, hv]

/-- C8 counterexample: `"httpbin"` is not an absolute URL (it has no URI
scheme), so by the claim the logged/requested URL should be the base URL
followed by the endpoint; but `buildUrl` tests only the literal prefix
`"http"` and leaves the endpoint unprefixed. -/
theorem buildUrl_absolute_counterexample :
    specIsAbsoluteUrl "httpbin" = false ∧
    ApiClientService.buildUrl "https://dummyjson.com" "httpbin" none = "httpbin" ∧
    ("httpbin" : String) ≠ "https://dummyjson.com" ++ "httpbin" := by
  refine ⟨by decide, by decide, by decide⟩

/-- C8 (corrected): for every client call the logged and the requested URL
both equal `buildUrl`, which prefixes the configured base URL unless the
endpoint starts with the literal string `"http"` (the code's check — not
"is an absolute URL": endpoints such as `"httpbin"` start with `"http"`
without being absolute, and absolute URLs of other schemes would still be
prefixed); for GET — the only verb that passes `params` — the supplied
query parameters are appended as a `?`-prefixed URL-encoded query string
whenever a params object is supplied. -/
theorem get_uses_buildUrl (c : ApiClientService.St) (db : LogDb) (o : GetOracle)
    (endpoint : String) (headers params : Option (List (String × String)))
    (hrep : c.hasLogRepository = true) (hreq : o.reqWrite = none) :
    (ApiClientService.get c db o endpoint headers params).2.1.requests
      = db.requests ++
        [{ id := db.nextReqId
           endpoint := ApiClientService.buildUrl c.baseUrl endpoint params
           method := "GET"
           headers := some (jsStringify
             (Js.obj ((headers.getD []).map fun kv => (kv.1, Js.str kv.2))))
           body := none
           timestamp := db.clock }] ∧
    (ApiClientService.get c db o endpoint headers params).2.2.head?
      = some (Event.netCall (ApiClientService.buildUrl c.baseUrl endpoint params)) ∧
    (ApiClientService.startsWithModel endpoint "http" = true →
      ApiClientService.buildUrl c.baseUrl endpoint params
        = endpoint ++ (match params with
            | none => ""
            | some ps => "?" ++ urlSearchParamsToString ps)) ∧
    (ApiClientService.startsWithModel endpoint "http" = false →
      ApiClientService.buildUrl c.baseUrl endpoint params
        = c.baseUrl ++ endpoint ++ (match params with
            | none => ""
            | some ps => "?" ++ urlSearchParamsToString ps)) := by
  refine ⟨?_, ?_, ?_, ?_⟩
  · cases hnet : o.net with
    | ok resp =>
      cases hw : o.respWrite with
      | none =>
        simp [ApiClientService.get, hrep, hreq, hnet, hw, ApiLogRepository.logRequest,
          ApiLogRepository.logResponse, serializeJson, Js.truthy]
      | some w =>
        cases herr : o.errWrite <;>
          simp [ApiClientService.get, hrep, hreq, hnet, hw, herr,
            ApiClientService.logErrorResponseModel, ApiLogRepository.logRequest,
            ApiLogRepository.logResponse, serializeJson, Js.truthy]
    | error e =>
      cases herr : o.errWrite <;>
        simp [ApiClientService.get, hrep, hreq, hnet, herr,
          ApiClientService.logErrorResponseModel, ApiLogRepository.logRequest,
          ApiLogRepository.logResponse, serializeJson, Js.truthy]
  · cases hnet : o.net with
    | ok resp =>
      cases hw : o.respWrite with
      | none => simp [ApiClientService.get, hrep, hreq, hnet, hw]
      | some w =>
        cases herr : o.errWrite <;>
          simp [ApiClientService.get, hrep, hreq, hnet, hw, herr,
            ApiClientService.logErrorResponseModel]
    | error e =>
      cases herr : o.errWrite <;>
        simp [ApiClientService.get, hrep, hreq, hnet, herr,
          ApiClientService.logErrorResponseModel]
  · intro hs
    cases params <;> simp [ApiClientService.buildUrl, hs, String.append_assoc]
  · intro hs
    cases params <;> simp [ApiClientService.buildUrl, hs, String.append_assoc]

/-- Witness for C8's corrected theorem: a GET to `/users` with one query
parameter. -/
theorem get_uses_buildUrl_witness :
    (ApiClientService.St.mk "https://dummyjson.com" true).hasLogRepository = true ∧
    (GetOracle.mk none (Except.ok exRespOk) none none 3).reqWrite = none ∧
    (ApiClientService.get (ApiClientService.St.mk "https://dummyjson.com" true)
        (LogDb.mk [] [] 1 1 0) (GetOracle.mk none (Except.ok exRespOk) none none 3)
        "/users" none (some [("limit", "10")])).2.1.requests
      = [] ++
        [{ id := 1
           endpoint := ApiClientService.buildUrl "https://dummyjson.com" "/users"
             (some [("limit", "10")])
           method := "GET"
           headers := some (jsStringify (Js.obj []))
           body := none
           timestamp := 0 }] ∧
    ApiClientService.startsWithModel "/users" "http" = false ∧
    ApiClientService.buildUrl "https://dummyjson.com" "/users" (some [("limit", "10")])
      = "https://dummyjson.com" ++ "/users" ++
        ("?" ++ urlSearchParamsToString [("limit", "10")]) :=
  ⟨rfl, rfl,
   (get_uses_buildUrl (ApiClientService.St.mk "https://dummyjson.com" true)
     (LogDb.mk [] [] 1 1 0) (GetOracle.mk none (Except.ok exRespOk) none none 3)
     "/users" none (some [("limit", "10")]) rfl rfl).1,
   by decide,
   (get_uses_buildUrl (ApiClientService.St.mk "https://dummyjson.com" true)
     (LogDb.mk [] [] 1 1 0) (GetOracle.mk none (Except.ok exRespOk) none none 3)
     "/users" none (some [("limit", "10")]) rfl rfl).2.2.2 (by decide)⟩

/-- The C7 counterexample store: one logged request whose endpoint `"/x"`
does not contain an underscore. -/
def exLikeDb : LogDb :=
  { requests := [{ id := 1, endpoint := "/x", method := "GET", headers := none
                   body := none, timestamp := 0 }]
    responses := [], nextReqId := 2, nextRespId := 1, clock := 1 }

/-- C7 counterexample: for the pattern `p = "_"`, `getRequestsByEndpoint`
returns the request with endpoint `"/x"` (SQL `LIKE '%_%'` treats `_` as
the any-one-character wildcard), although `"/x"` does not contain `"_"` as
a substring — so the result is not the substring-containing subset for
every pattern string. -/
theorem getRequestsByEndpoint_counterexample :
    ApiLogRepository.getRequestsByEndpoint exLikeDb "_"
      = [{ id := 1, endpoint := "/x", method := "GET", headers := none
           body := none, timestamp := 0 }] ∧
    exLikeDb.requests.filter (fun r => subB "_".data r.endpoint.data) = [] := by
  refine ⟨by decide, by decide⟩

/-- C7 (corrected): for every *wildcard-free* pattern string `p` — one
containing no `%`, no `_`, and no escape character `\\`; the spec's own
instance `"users"` is such — `getRequestsByEndpoint p` returns exactly the
logged requests whose endpoint contains `p` as a case-sensitive substring,
ordered newest first; `subB` is genuine substring containment (second
conjunct).  For patterns containing SQL LIKE metacharacters the match is
the wildcard match, not substring containment (see the counterexample). -/
theorem getRequestsByEndpoint_clean (db : LogDb) (p : String)
    (hclean : likePatClean p = true)
    (hts : db.requests.Pairwise fun a b => a.timestamp < b.timestamp) :
    ApiLogRepository.getRequestsByEndpoint db p
      = (db.requests.filter fun r => subB p.data r.endpoint.data).reverse ∧
    (∀ q s : List Char, subB q s = true ↔ q <:+: s) := by
  constructor
  · rw [ApiLogRepository.getRequestsByEndpoint]
    have hfe : (db.requests.filter fun r => likeMatch ("%" ++ p ++ "%").data r.endpoint.data)
        = db.requests.filter fun r => subB p.data r.endpoint.data := by
      apply List.filter_congr
      intro r _
      rw [likeMatch_clean p r.endpoint hclean]
    rw [hfe]
    exact sortByKeyDesc_of_strictAsc _ _
      (List.Pairwise.sublist (List.filter_sublist _) hts)
  · exact fun q s => subB_iff q s

/-- Witness for C7's corrected theorem: pattern `"users"` over a store with
one matching and one non-matching request. -/
theorem getRequestsByEndpoint_clean_witness :
    likePatClean "users" = true ∧
    (LogDb.mk
        [{ id := 1, endpoint := "https://dummyjson.com/users/1", method := "GET"
           headers := none, body := none, timestamp := 0 },
         { id := 2, endpoint := "https://dummyjson.com/posts", method := "GET"
           headers := none, body := none, timestamp := 1 }]
        [] 3 1 2).requests.Pairwise (fun a b => a.timestamp < b.timestamp) ∧
    ApiLogRepository.getRequestsByEndpoint
        (LogDb.mk
          [{ id := 1, endpoint := "https://dummyjson.com/users/1", method := "GET"
             headers := none, body := none, timestamp := 0 },
           { id := 2, endpoint := "https://dummyjson.com/posts", method := "GET"
             headers := none, body := none, timestamp := 1 }]
          [] 3 1 2) "users"
      = ((LogDb.mk
          [{ id := 1, endpoint := "https://dummyjson.com/users/1", method := "GET"
             headers := none, body := none, timestamp := 0 },
           { id := 2, endpoint := "https://dummyjson.com/posts", method := "GET"
             headers := none, body := none, timestamp := 1 }]
          [] 3 1 2).requests.filter
            fun r => subB "users".data r.endpoint.data).reverse :=
  ⟨by decide, by decide,
   (getRequestsByEndpoint_clean
     (LogDb.mk
       [{ id := 1, endpoint := "https://dummyjson.com/users/1", method := "GET"
          headers := none, body := none, timestamp := 0 },
        { id := 2, endpoint := "https://dummyjson.com/posts", method := "GET"
          headers := none, body := none, timestamp := 1 }]
       [] 3 1 2) "users" (by decide) (by decide)).1⟩

/-- C6 (confirmed): for any store contents with distinct request ids, every
response referencing an existing request (the situation the logging
pipeline produces), and store-assigned strictly increasing response
timestamps, `getFailedResponses` returns exactly the response rows with
`statusCode >= 400` — newest first (the reverse of insertion order) — each
inner-joined to the endpoint and method of its request; no returned row
has `statusCode < 400`.  Read queries in the model are pure functions on
`LogDb` — no state is produced or mutated. -/
theorem getFailedResponses_spec (db : LogDb)
    (hnd : (db.requests.map fun r => r.id).Nodup)
    (hpres : ∀ res ∈ db.responses, ∃ r ∈ db.requests, r.id = res.requestId)
    (hts : db.responses.Pairwise fun a b => a.timestamp < b.timestamp) :
    (ApiLogRepository.getFailedResponses db).map (fun j => j.resp)
      = (db.responses.filter fun res => decide (400 ≤ res.statusCode)).reverse ∧
    (∀ j ∈ ApiLogRepository.getFailedResponses db,
      400 ≤ j.resp.statusCode ∧
      ∃ r ∈ db.requests, r.id = j.resp.requestId ∧
        j.endpoint = r.endpoint ∧ j.method = r.method) := by
  have hmap := joinRows_map_resp db.requests db.responses hnd hpres
  have hmapL :
      ((joinRows db.requests db.responses).filter
          (fun j => decide (400 ≤ j.resp.statusCode))).map (fun j => j.resp)
        = db.responses.filter fun res => decide (400 ≤ res.statusCode) := by
    have hcomm := List.filter_map (fun j : FailedRow => j.resp)
      (joinRows db.requests db.responses)
      (p := fun res => decide (400 ≤ res.statusCode))
    rw [hmap] at hcomm
    exact hcomm.symm
  have hpair :
      ((joinRows db.requests db.responses).filter
          (fun j => decide (400 ≤ j.resp.statusCode))).Pairwise
        (fun a b => a.resp.timestamp < b.resp.timestamp) := by
    refine List.Pairwise.sublist (List.filter_sublist _) ?_
    have : ((joinRows db.requests db.responses).map (fun j => j.resp)).Pairwise
        (fun a b => a.timestamp < b.timestamp) := by
      rw [hmap]; exact hts
    exact (List.pairwise_map (l := joinRows db.requests db.responses)
      (f := fun j : FailedRow => j.resp)
      (R := fun a b => a.timestamp < b.timestamp)).mp this
  have hsorted : ApiLogRepository.getFailedResponses db
      = ((joinRows db.requests db.responses).filter
          (fun j => decide (400 ≤ j.resp.statusCode))).reverse := by
    rw [ApiLogRepository.getFailedResponses]
    exact sortByKeyDesc_of_strictAsc _ _ hpair
  constructor
  · rw [hsorted, List.map_reverse, hmapL]
  · intro j hj
    rw [hsorted] at hj
    have hjL := List.mem_reverse.mp hj
    obtain ⟨hjJ, hstat⟩ := List.mem_filter.mp hjL
    obtain ⟨res, hres, r, hr, hid, hjeq⟩ := mem_joinRows hjJ
    subst hjeq
    exact ⟨by simpa using hstat, r, hr, hid, rfl, rfl⟩

/-- Witness for C6: a 200 and a 500 response over two requests. -/
theorem getFailedResponses_spec_witness :
    ((LogDb.mk
        [{ id := 1, endpoint := "https://dummyjson.com/users/1", method := "GET"
           headers := none, body := none, timestamp := 0 },
         { id := 2, endpoint := "https://dummyjson.com/users/999", method := "DELETE"
           headers := none, body := none, timestamp := 2 }]
        [{ id := 1, requestId := 1, statusCode := 200, headers := none, body := none
           responseTimeMs := 5, timestamp := 1 },
         { id := 2, requestId := 2, statusCode := 500, headers := none, body := none
           responseTimeMs := 9, timestamp := 3 }]
        3 3 4).requests.map fun r => r.id).Nodup ∧
    (ApiLogRepository.getFailedResponses
        (LogDb.mk
          [{ id := 1, endpoint := "https://dummyjson.com/users/1", method := "GET"
             headers := none, body := none, timestamp := 0 },
           { id := 2, endpoint := "https://dummyjson.com/users/999", method := "DELETE"
             headers := none, body := none, timestamp := 2 }]
          [{ id := 1, requestId := 1, statusCode := 200, headers := none, body := none
             responseTimeMs := 5, timestamp := 1 },
           { id := 2, requestId := 2, statusCode := 500, headers := none, body := none
             responseTimeMs := 9, timestamp := 3 }]
          3 3 4)).map (fun j => j.resp)
      = ((LogDb.mk
          [{ id := 1, endpoint := "https://dummyjson.com/users/1", method := "GET"
             headers := none, body := none, timestamp := 0 },
           { id := 2, endpoint := "https://dummyjson.com/users/999", method := "DELETE"
             headers := none, body := none, timestamp := 2 }]
          [{ id := 1, requestId := 1, statusCode := 200, headers := none, body := none
             responseTimeMs := 5, timestamp := 1 },
           { id := 2, requestId := 2, statusCode := 500, headers := none, body := none
             responseTimeMs := 9, timestamp := 3 }]
          3 3 4).responses.filter fun res => decide (400 ≤ res.statusCode)).reverse :=
  ⟨by decide,
   (getFailedResponses_spec
     (LogDb.mk
       [{ id := 1, endpoint := "https://dummyjson.com/users/1", method := "GET"
          headers := none, body := none, timestamp := 0 },
        { id := 2, endpoint := "https://dummyjson.com/users/999", method := "DELETE"
          headers := none, body := none, timestamp := 2 }]
       [{ id := 1, requestId := 1, statusCode := 200, headers := none, body := none
          responseTimeMs := 5, timestamp := 1 },
        { id := 2, requestId := 2, statusCode := 500, headers := none, body := none
          responseTimeMs := 9, timestamp := 3 }]
       3 3 4) (by decide) (by decide) (by decide)).1⟩
